import Mathlib

/-!
# Verification of the festival-of-stress orchestration core

Shallow embedding of the concurrent stress-harness (`src/main.rs`,
`src/zfs.rs`): corpus generation (`Seed::setup`), the churn engine
(`file_futz` and the per-plant sweep loop in `Plant::start`), and the
backup-cycle scheduler (retention trimming, transfer-validation gating and
the send worker pool in `main`'s `"backup"` arm).

Machine integers are modelled as `Nat` with explicit wrap-around
(`% 2^64`) where Rust's release-mode wrapping matters.  The process-level
storage interface (`zfs.rs`) is modelled as a pure state (`Storage`)
together with a trace of issued commands (`ZfsCmd`).
-/

/-! ## Constants (from `src/main.rs`) -/

def KILOBYTE : Nat := 1024

def MEGABYTE : Nat := KILOBYTE * 1024

def SEED_FILE_COUNT : Nat := 1000

def FILE_MIN : Nat := 2

def FILE_MAX : Nat := 32

/-- `maxsnaps` in `main`'s `"backup"` arm (`let maxsnaps = 5`). -/
def maxsnaps : Nat := 5

/-- The send worker pool size in the `"backup"` arm (`for _ in 0..4`). -/
def numSendWorkers : Nat := 4

/-! ## Rust integer formatting

The id and fan-out names are produced with Rust format strings
`{:<04}`, `{:<04X}` and `{:<016X}`.  Rust's `0` flag (sign-aware zero
padding) overrides the fill character and the alignment flag
(`core::fmt::Formatter::pad_integral` replaces the alignment with
`Right` and the fill with `'0'` whenever the `0` flag is set), so these
render as right-aligned, zero-left-padded decimal resp. uppercase
hexadecimal of the given minimum width. -/

/-- One decimal digit as a character. -/
def decChar (n : Nat) : Char := Char.ofNat (48 + n)

/-- One uppercase hexadecimal digit as a character (Rust `{:X}`). -/
def hexChar (n : Nat) : Char :=
  if n < 10 then Char.ofNat (48 + n) else Char.ofNat (55 + n)

/-- Digit accumulation for decimal rendering (fuel-based, in the style of
`Nat.toDigitsCore`; `fuel = n` always suffices since a number has no more
digits than its own value). -/
def decDigitsGo (fuel n : Nat) (acc : List Char) : List Char :=
  match fuel with
  | 0 => acc
  | f + 1 => if n = 0 then acc else decDigitsGo f (n / 10) (decChar (n % 10) :: acc)

/-- Decimal rendering of a natural number, as Rust `{}` renders integers. -/
def decStr (n : Nat) : List Char :=
  if n = 0 then ['0'] else decDigitsGo n n []

/-- Digit accumulation for hexadecimal rendering (fuel-based). -/
def hexDigitsGo (fuel n : Nat) (acc : List Char) : List Char :=
  match fuel with
  | 0 => acc
  | f + 1 => if n = 0 then acc else hexDigitsGo f (n / 16) (hexChar (n % 16) :: acc)

/-- Hexadecimal rendering of a natural number, as Rust `{:X}`. -/
def hexStr (n : Nat) : List Char :=
  if n = 0 then ['0'] else hexDigitsGo n n []

/-- Rust `format!("{:<04}", n)`: the `0` flag forces zero left padding to
width 4 (the `<` alignment is overridden by the `0` flag). -/
def fmt04 (n : Nat) : String :=
  ⟨List.replicate (4 - (decStr n).length) '0' ++ decStr n⟩

/-- Rust `format!("{:<04X}", n)`: zero-left-padded width-4 uppercase hex. -/
def fmt04X (n : Nat) : String :=
  ⟨List.replicate (4 - (hexStr n).length) '0' ++ hexStr n⟩

/-- Rust `format!("{:<016X}", n)`: zero-left-padded width-16 uppercase hex. -/
def fmt016X (n : Nat) : String :=
  ⟨List.replicate (16 - (hexStr n).length) '0' ++ hexStr n⟩

/-! ## Dataset naming (`Seed::setup`, `Plant::setup`, `main`) -/

/-- `format!("{}/seed", pool)` in `Seed::setup`. -/
def seedRoot (pool : String) : String := pool ++ "/seed"

/-- `format!("{}/{:<04}", root, id)` in `Seed::setup`. -/
def seedDatasetName (pool : String) (id : Nat) : String :=
  seedRoot pool ++ "/" ++ fmt04 id

/-- `format!("{}/plant/{:<04}", pool, id)` in `Plant::setup`. -/
def plantDatasetName (pool : String) (id : Nat) : String :=
  pool ++ "/plant/" ++ fmt04 id

/-- The two fan-out directory components of one seed file
(`fp.push(format!("{:<04X}", l0)); fp.push(format!("{:<04X}", l1))`
in `Seed::setup`). -/
def fanoutDirs (l0 l1 : Nat) : String × String := (fmt04X l0, fmt04X l1)

/-- A hexadecimal character (digit or `A`-`F`/`a`-`f`). -/
def isHexChar (c : Char) : Bool :=
  c.isDigit || (('A' : Char) ≤ c && c ≤ ('F' : Char)) ||
    (('a' : Char) ≤ c && c ≤ ('f' : Char))

/-! ## Churn: `file_futz`

`file_futz` opens the file, reads its size `sz` (u64), draws
`iops ∈ [1, 10000)`, and per operation draws
`target = rng.gen_range(0..(sz / 1024 - 1))` and seeks to byte `target`
(`f.seek(io::SeekFrom::Start(target))`), then writes or reads exactly one
kilobyte at that position.  `sz / 1024 - 1` is u64 arithmetic: in release
mode the subtraction wraps modulo `2^64`; `gen_range` on an empty range
(`0..0`) panics. -/

/-- Wrapping u64 subtraction (Rust release-mode `a - b` on `u64`),
for `a < 2^64`. -/
def u64sub (a b : Nat) : Nat := (a + (2 ^ 64 - b % 2 ^ 64)) % 2 ^ 64

/-- The exclusive upper bound `sz / 1024 - 1` (u64, wrapping) of the
`gen_range` call in `file_futz`. -/
def fileFutzBound (sz : Nat) : Nat := u64sub (sz / KILOBYTE) 1

/-- `rng.gen_range(0..bound)` given raw entropy `r`: uniform draw modelled
as `r % bound`; an empty range (`bound = 0`) panics (`none`). -/
def genRangeLt (bound r : Nat) : Option Nat :=
  if bound = 0 then none else some (r % bound)

/-- The byte offset passed to `f.seek(io::SeekFrom::Start(..))` by one
`file_futz` operation on a file of size `sz`, for raw entropy `r`
(`none` = the draw panicked on an empty range). -/
def fileFutzSeek (sz r : Nat) : Option Nat := genRangeLt (fileFutzBound sz) r

/-! ## Churn: the per-sweep shuffle in `Plant::start`

The sweep builds `neworder = [0, .., n-1]`, then runs
`i = n-1; while i >= 1 { let j = rng.gen_range(0..i); neworder.swap(i, j); i -= 1 }`
— note `j` is drawn from `[0, i)`, excluding `i` itself. -/

/-- `VecDeque::swap(i, j)`: exchange the elements at positions `i` and `j`. -/
def swapIdx (l : List Nat) (i j : Nat) : List Nat :=
  (l.set i (l.getD j 0)).set j (l.getD i 0)

/-- The shuffle loop: current index first argument `m` (the loop runs while
`m ≥ 1`), consuming one drawn `j` per iteration. -/
def shuffleGo : List Nat → Nat → List Nat → List Nat
  | l, 0, _ => l
  | l, _ + 1, [] => l
  | l, i + 1, j :: rest => shuffleGo (swapIdx l (i + 1) j) i rest

/-- The visiting order of one sweep over `n` files: the shuffled index
deque, popped front to back. -/
def churnShuffle (n : Nat) (draws : List Nat) : List Nat :=
  if n = 0 then [] else shuffleGo (List.range n) (n - 1) draws

/-- The draw sequence a sweep over `n` files consumes: one draw per index
`i = n-1, .., 1`, each strictly below the current `i`
(`rng.gen_range(0..i)`). -/
def ValidDraws (n : Nat) (draws : List Nat) : Prop :=
  draws.length = n - 1 ∧ ∀ k, k < draws.length → draws.getD k 0 < n - 1 - k

instance (n : Nat) (draws : List Nat) : Decidable (ValidDraws n draws) := by
  unfold ValidDraws
  infer_instance

/-- All draw sequences for the loop indices `i, i-1, .., 1`. -/
def drawSeqs : Nat → List (List Nat)
  | 0 => [[]]
  | i + 1 => ((List.range (i + 1)).map fun j => (drawSeqs i).map fun rest => j :: rest).flatten

/-- Every visiting order a sweep over `n` files can produce, one entry per
possible draw sequence. -/
def shuffleOutcomes (n : Nat) : List (List Nat) :=
  (drawSeqs (n - 1)).map (churnShuffle n)

/-! ## Backup cycle (`main`'s `"backup"` arm)

Per dataset the main thread takes the cycle snapshot, then runs the
retention loop (list snapshots oldest-first; while the count is
`>= maxsnaps` destroy `snaps[0]`, the oldest, and re-list), then — if at
least two snapshots remain — pushes `(ds, snaps[len-2], snaps[len-1])`
onto a shared `Vec`; afterwards 4 worker threads repeatedly `pop()` that
`Vec` (from its end) and run `zfs_send_to_null` once per popped job.
Snapshot lists are oldest-to-newest (`zfs list -s creation`); destroying
the head and re-listing yields the tail. -/

/-- The retention loop: break with the current list as soon as its length
is `< maxsnaps`, else destroy the oldest (head) and re-list. -/
def retention : List String → List String
  | [] => []
  | a :: rest => if rest.length + 1 < maxsnaps then a :: rest else retention rest

/-- One dataset's slice of a cycle: snapshot (append `snapname`, the
newest), retention-trim, then gate: with fewer than two snapshots left no
send job; otherwise one send job `(second-most-recent, most-recent)`. -/
def processDataset (snapname : String) (snaps : List String) :
    List String × Option (String × String) :=
  let s := retention (snaps ++ [snapname])
  if s.length < 2 then (s, none)
  else (s, some (s.getD (s.length - 2) "", s.getD (s.length - 1) ""))

/-- The main thread's loop over the cycle's datasets (each given with its
pre-cycle snapshot list): returns the post-retention states and the send
queue in push order. -/
def backupCycle (snapname : String) :
    List (String × List String) →
      List (String × List String) × List (String × String × String)
  | [] => ([], [])
  | (ds, snaps) :: rest =>
    let r := processDataset snapname snaps
    let rem := backupCycle snapname rest
    ((ds, r.1) :: rem.1,
     match r.2 with
     | none => rem.2
     | some ab => (ds, ab.1, ab.2) :: rem.2)

/-- The send worker pool: at each step the scheduled worker locks the
queue and pops one job from the end (`Vec::pop`); a worker that finds the
queue empty exits.  `sched` is the interleaving of pops across the 4
workers; the result lists who executed which job, in execution order. -/
def workerPhase : List (Fin numSendWorkers) → List (String × String × String) →
    List (Fin numSendWorkers × (String × String × String))
  | [], _ => []
  | w :: ws, q =>
    match q.getLast? with
    | none => []
    | some job => (w, job) :: workerPhase ws q.dropLast

/-! ## Seed corpus generation (`Seed::setup`) -/

/-- The random draws of one seed-file iteration: `l0 = gen_range(0..16)`,
`l1 = gen_range(0..16)`, `l2 = gen::<u64>()`, and
`sz_mb = gen_range(FILE_MIN..=FILE_MAX)`. -/
structure SeedDraw where
  l0 : Nat
  l1 : Nat
  l2 : Nat
  szMb : Nat
deriving DecidableEq

/-- Each of the `sz_mb * 64` content chunks is filled to exactly
`16 * KILOBYTE` bytes before being written. -/
def chunkLen : Nat := 16 * KILOBYTE

/-- Bytes written to one seed file: `sz_mb * 64` chunks of `16 KiB`. -/
def seedFileSize (szMb : Nat) : Nat := szMb * 64 * chunkLen

/-- The mountpoint-relative path of one seed file:
`<l0 as {:<04X}>/<l1 as {:<04X}>/<l2 as {:<016X}>.dat`. -/
def seedFilePath (d : SeedDraw) : String :=
  (fanoutDirs d.l0 d.l1).1 ++ "/" ++ (fanoutDirs d.l0 d.l1).2 ++ "/" ++
    fmt016X d.l2 ++ ".dat"

/-- The corpus produced by the `for _ in 0..SEED_FILE_COUNT` loop, as the
sequence of (path, size) file writes, in creation order.  Writing an
already-present path truncates and overwrites it (`.truncate(true)`), so
the set of distinct files on disk afterwards is the set of distinct
paths. -/
def seedCorpus (draws : List SeedDraw) : List (String × Nat) :=
  draws.map fun d => (seedFilePath d, seedFileSize d.szMb)

/-- What the generator's RNG can produce: exactly `SEED_FILE_COUNT`
iterations, each draw within its `gen_range` bounds. -/
def ValidSeedDraws (draws : List SeedDraw) : Prop :=
  draws.length = SEED_FILE_COUNT ∧
  ∀ d ∈ draws, d.l0 < 16 ∧ d.l1 < 16 ∧ d.l2 < 2 ^ 64 ∧
    FILE_MIN ≤ d.szMb ∧ d.szMb ≤ FILE_MAX

instance (draws : List SeedDraw) : Decidable (ValidSeedDraws draws) := by
  unfold ValidSeedDraws
  infer_instance

/-! ## Storage model for `Seed::setup` (C9)

`zfs.rs` is modelled as a pure state plus a trace of issued commands. -/

/-- A command issued by `Seed::setup` (subprocess calls and file writes). -/
inductive ZfsCmd where
  | create (ds : String) (existsOk : Bool)
  | destroy (ds : String) (recursive : Bool)
  | snapshot (ds name : String)
  | snapExistsQ (ds name : String)
  | getProp (ds prop : String)
  | chown (path : String)
  | fileWrite (path : String) (size : Nat)
deriving DecidableEq

/-- Storage state: existing datasets and existing snapshots. -/
structure Storage where
  datasets : List String
  snaps : List (String × String)
deriving DecidableEq

/-- Effect of `zfs create` (with `exists_ok`, an existing dataset is left
alone and the error is swallowed). -/
def zfsCreateSt (st : Storage) (ds : String) : Storage :=
  if ds ∈ st.datasets then st else ⟨ds :: st.datasets, st.snaps⟩

/-- Effect of `zfs destroy -r`: removes the dataset, its descendants and
their snapshots; destroying an absent dataset is a tolerated no-op. -/
def zfsDestroySt (st : Storage) (ds : String) : Storage :=
  ⟨st.datasets.filter fun d => !(d == ds || d.startsWith (ds ++ "/")),
   st.snaps.filter fun p => !(p.1 == ds || p.1.startsWith (ds ++ "/"))⟩

/-- Effect of `zfs snapshot`. -/
def zfsSnapshotSt (st : Storage) (ds name : String) : Storage :=
  ⟨st.datasets, st.snaps ++ [(ds, name)]⟩

/-- The engine-managed mountpoint read back via `zfs get mountpoint`. -/
def mountpointOf (ds : String) : String := "/" ++ ds

/-- `Seed::setup`: create the seed root (`exists_ok`), then — unless the
dataset's `final` snapshot already exists — destroy and recreate the seed
dataset, fix ownership, generate the corpus, and take the `final`
snapshot.  Returns the issued command trace and the resulting state. -/
def seedSetup (st : Storage) (pool : String) (id : Nat) (draws : List SeedDraw) :
    List ZfsCmd × Storage :=
  let root := seedRoot pool
  let st1 := zfsCreateSt st root
  let ds := seedDatasetName pool id
  if (ds, "final") ∈ st1.snaps then
    ([ZfsCmd.create root true, ZfsCmd.snapExistsQ ds "final"], st1)
  else
    let st2 := zfsDestroySt st1 ds
    let st3 := zfsCreateSt st2 ds
    let st4 := zfsSnapshotSt st3 ds "final"
    ([ZfsCmd.create root true, ZfsCmd.snapExistsQ ds "final",
      ZfsCmd.destroy ds true, ZfsCmd.create ds false,
      ZfsCmd.getProp ds "mountpoint", ZfsCmd.chown (mountpointOf ds)] ++
      (seedCorpus draws).map (fun p => ZfsCmd.fileWrite p.1 p.2) ++
      [ZfsCmd.snapshot ds "final"], st4)

/-- A degenerate but in-range draw list: all `SEED_FILE_COUNT` iterations
draw the same fan-out cell, file name and size. -/
def dupDraws : List SeedDraw := List.replicate SEED_FILE_COUNT ⟨0, 0, 0, 2⟩

/-- A concrete storage state in which seed 3 is fully set up (root
present, `final` snapshot present). -/
def stW : Storage :=
  ⟨["dynamite", "dynamite/seed", "dynamite/seed/0003"],
   [("dynamite/seed/0003", "final")]⟩

/-- A concrete two-dataset cycle input used to exercise the backup-cycle
model on explicit data. -/
def dssW : List (String × List String) :=
  [("dynamite/plant/0000", ["s1"]), ("dynamite/plant/0001", ["t1", "t2"])]

/-- A concrete two-pop worker interleaving (workers 0 and 1 of the 4). -/
def schedW : List (Fin numSendWorkers) := [⟨0, by decide⟩, ⟨1, by decide⟩]

/-! ## Lemmas about id rendering -/

lemma fmt04_nodup_60 : ((List.range 60).map fmt04).Nodup := by decide

lemma fmt04_inj_on_60 :
    ∀ i, i < 60 → ∀ j, j < 60 → fmt04 i = fmt04 j → i = j := by
  intro i hi j hj hf
  exact List.inj_on_of_nodup_map fmt04_nodup_60 (List.mem_range.mpr hi)
    (List.mem_range.mpr hj) hf

lemma string_append_right_ne (a : String) {x y : String} (h : x ≠ y) :
    a ++ x ≠ a ++ y := by
  intro he
  apply h
  apply String.ext
  have hd : a.data ++ x.data = a.data ++ y.data := by
    simpa [String.data_append] using congrArg String.data he
  exact List.append_cancel_left hd

/-! ## C6 and C10: naming -/

/-- C6: distinct seed ids (0..10) and distinct plant ids (0..60) always
render to distinct dataset names `<pool>/seed/<4-digit-id>` and
`<pool>/plant/<4-digit-id>`: the `{:<04}` rendering zero-pads on the left
(Rust's `0` flag overrides the `<` alignment), so it is injective over
the ids used and no two seeds and no two plants share a dataset; the id
component is always exactly 4 decimal digits. -/
theorem C6_dataset_names_injective :
    (∀ i, i < 10 → ∀ j, j < 10 → i ≠ j →
        seedDatasetName "dynamite" i ≠ seedDatasetName "dynamite" j) ∧
    (∀ i, i < 60 → ∀ j, j < 60 → i ≠ j →
        plantDatasetName "dynamite" i ≠ plantDatasetName "dynamite" j) ∧
    (∀ i, i < 60 → (fmt04 i).length = 4 ∧ ∀ c ∈ (fmt04 i).data, c.isDigit) := by
  refine ⟨?_, ?_, ?_⟩
  · intro i hi j hj hij
    have h : fmt04 i ≠ fmt04 j := fun hf =>
      hij (fmt04_inj_on_60 i (by omega) j (by omega) hf)
    exact string_append_right_ne (seedRoot "dynamite" ++ "/") h
  · intro i hi j hj hij
    have h : fmt04 i ≠ fmt04 j := fun hf => hij (fmt04_inj_on_60 i hi j hj hf)
    exact string_append_right_ne ("dynamite" ++ "/plant/") h
  · decide

/-- Witness for C6 at concrete ids: seeds 1 and 9, plants 1 and 10. -/
theorem C6_dataset_names_injective_witness :
    seedDatasetName "dynamite" 1 ≠ seedDatasetName "dynamite" 9 ∧
    plantDatasetName "dynamite" 1 ≠ plantDatasetName "dynamite" 10 ∧
    (fmt04 59).length = 4 :=
  ⟨C6_dataset_names_injective.1 1 (by norm_num) 9 (by norm_num) (by norm_num),
   C6_dataset_names_injective.2.1 1 (by norm_num) 10 (by norm_num) (by norm_num),
   (C6_dataset_names_injective.2.2 59 (by norm_num)).1⟩

/-- C10: every fan-out directory name generated by the corpus generator is
exactly 4 hexadecimal characters, at both levels, each rendering a draw
over [0,16) as fixed-width (zero-padded) hexadecimal. -/
theorem C10_fanout_dirs_hex4 :
    ∀ l0, l0 < 16 → ∀ l1, l1 < 16 →
      ((fanoutDirs l0 l1).1.length = 4 ∧
        ∀ c ∈ (fanoutDirs l0 l1).1.data, isHexChar c) ∧
      ((fanoutDirs l0 l1).2.length = 4 ∧
        ∀ c ∈ (fanoutDirs l0 l1).2.data, isHexChar c) := by
  decide

/-- Witness for C10 at the concrete draw (10, 0). -/
theorem C10_fanout_dirs_hex4_witness :
    ((fanoutDirs 10 0).1.length = 4 ∧
      ∀ c ∈ (fanoutDirs 10 0).1.data, isHexChar c) ∧
    ((fanoutDirs 10 0).2.length = 4 ∧
      ∀ c ∈ (fanoutDirs 10 0).2.data, isHexChar c) :=
  C10_fanout_dirs_hex4 10 (by norm_num) 0 (by norm_num)

/-! ## C5: the per-sweep shuffle -/

lemma getD_cons_set_perm :
    ∀ (xs : List Nat) (j : Nat) (x : Nat), j < xs.length →
      (xs.getD j 0 :: xs.set j x).Perm (x :: xs) := by
  intro xs
  induction xs with
  | nil => intro j x hj; simp at hj
  | cons a t ih =>
    intro j x hj
    match j with
    | 0 => simpa using List.Perm.swap x a t
    | j + 1 =>
      have hjt : j < t.length := by simpa using hj
      have h1 : (t.getD j 0 :: a :: t.set j x).Perm (a :: t.getD j 0 :: t.set j x) :=
        List.Perm.swap a (t.getD j 0) (t.set j x)
      have h2 : (a :: t.getD j 0 :: t.set j x).Perm (a :: x :: t) :=
        (ih j x hjt).cons a
      have h3 : (a :: x :: t).Perm (x :: a :: t) := List.Perm.swap x a t
      simpa using h1.trans (h2.trans h3)

lemma swapIdx_perm :
    ∀ (l : List Nat) (i j : Nat), i < l.length → j < l.length →
      (swapIdx l i j).Perm l := by
  intro l
  induction l with
  | nil => intro i j hi _; simp at hi
  | cons x xs ih =>
    intro i j hi hj
    match i, j with
    | 0, 0 =>
      have h : swapIdx (x :: xs) 0 0 = x :: xs := by simp [swapIdx]
      rw [h]
    | 0, j + 1 =>
      have hjt : j < xs.length := by simpa using hj
      simpa [swapIdx] using getD_cons_set_perm xs j x hjt
    | i + 1, 0 =>
      have hit : i < xs.length := by simpa using hi
      simpa [swapIdx] using getD_cons_set_perm xs i x hit
    | i + 1, j + 1 =>
      have hit : i < xs.length := by simpa using hi
      have hjt : j < xs.length := by simpa using hj
      simpa [swapIdx] using (ih i j hit hjt).cons x

lemma shuffleGo_perm :
    ∀ (draws l : List Nat) (m : Nat), m < l.length →
      (∀ k, k < draws.length → draws.getD k 0 < m - k) →
      (shuffleGo l m draws).Perm l := by
  intro draws
  induction draws with
  | nil => intro l m _ _; cases m <;> exact List.Perm.refl _
  | cons j rest ih =>
    intro l m hm hd
    match m with
    | 0 => exact List.Perm.refl _
    | i + 1 =>
      have hj : j < i + 1 := by simpa using hd 0 (by simp)
      have hjl : j < l.length := lt_trans hj hm
      have hswap := swapIdx_perm l (i + 1) j hm hjl
      have hlen : (swapIdx l (i + 1) j).length = l.length := by simp [swapIdx]
      have hrest : ∀ k, k < rest.length → rest.getD k 0 < i - k := by
        intro k hk
        have := hd (k + 1) (by simpa using Nat.succ_lt_succ hk)
        simpa [Nat.succ_sub_succ] using this
      have hrec := ih (swapIdx l (i + 1) j) i (by rw [hlen]; omega) hrest
      exact hrec.trans hswap

/-- C5 counterexample: the sweep order is NOT drawn uniformly by a
Fisher-Yates shuffle.  The swap target is drawn from `[0, i)` (Sattolo's
variant), so for 2 files the only possible draw sequence is `[0]` and the
only reachable order is `[1, 0]`: the identity order `[0, 1]`, which a
uniform Fisher-Yates shuffle must produce with probability 1/2, is
unreachable (and for 3 files only 2 of the 6 orders are reachable). -/
theorem C5_counterexample :
    shuffleOutcomes 2 = [[1, 0]] ∧ ([0, 1] : List Nat) ∉ shuffleOutcomes 2 ∧
      ([1, 0] : List Nat) ≠ [0, 1] ∧
      shuffleOutcomes 3 = [[1, 2, 0], [2, 0, 1]] ∧
      ([0, 1, 2] : List Nat) ∉ shuffleOutcomes 3 := by decide

/-- C5 (amended): within one ChurnEngine sweep over `n` collected files,
every file is visited exactly once — the visiting order is a permutation
of the indices — but the permutation is generated by Sattolo's variant of
the shuffle (swap target drawn from `[0, i)` instead of `[0, i]`), which
is not uniform over all permutations (it never yields the identity for
`n ≥ 2`). -/
theorem C5_sweep_is_permutation :
    ∀ n draws, ValidDraws n draws → (churnShuffle n draws).Perm (List.range n) := by
  intro n draws hv
  unfold churnShuffle
  split
  · rename_i h
    subst h
    simp
  · rename_i h
    apply shuffleGo_perm
    · rw [List.length_range]
      omega
    · exact hv.2

/-- Witness for C5 (amended) at the concrete sweep `n = 3`,
`draws = [1, 0]`. -/
theorem C5_sweep_is_permutation_witness :
    ValidDraws 3 [1, 0] ∧ (churnShuffle 3 [1, 0]).Perm (List.range 3) :=
  ⟨by decide, C5_sweep_is_permutation 3 [1, 0] (by decide)⟩

/-! ## C1 and C4: churn offsets -/

/-- C1 counterexample: seek offsets are NOT 1 KiB-aligned.  `file_futz`
seeks to the drawn value itself (`f.seek(SeekFrom::Start(target))` with
`target ∈ [0, sz/1024 - 1)`), without multiplying by 1024: on a 2 MiB
file the draw with raw entropy 1 yields seek offset 1, which is not a
multiple of 1024. -/
theorem C1_counterexample :
    fileFutzSeek 2097152 1 = some 1 ∧ ¬ (1024 ∣ 1) ∧
      fileFutzBound 2097152 = 2047 := by decide

/-- C1 (amended): for a file of size `S ≥ 2 KiB` (below 2 KiB the range
is empty or wraps, see C4), every seek offset `o` drawn by `file_futz`
satisfies `o < S/1024 - 1`; the offset is a plain byte offset, not a
1 KiB-aligned one, and the drawn value still satisfies the spec's bound
`o * 1024 < S - 1024`; the 1 KiB operation `[o, o + 1024)` never touches
the final partial block (it ends at or before `(S/1024) * 1024`). -/
theorem C1_churn_offset_safety :
    ∀ sz r o, 2 * KILOBYTE ≤ sz → sz < 2 ^ 64 →
      fileFutzSeek sz r = some o →
      o < sz / KILOBYTE - 1 ∧
      o * KILOBYTE < sz - KILOBYTE ∧
      o + KILOBYTE ≤ (sz / KILOBYTE) * KILOBYTE := by
  intro sz r o h2k hlt hseek
  have hk : KILOBYTE = 1024 := rfl
  have e64 : (2 : Nat) ^ 64 = 18446744073709551616 := by norm_num
  have hq2 : 2 ≤ sz / KILOBYTE := by
    rw [Nat.le_div_iff_mul_le (by rw [hk]; norm_num)]
    omega
  have hqlt : sz / KILOBYTE < 2 ^ 64 := lt_of_le_of_lt (Nat.div_le_self _ _) hlt
  have hbound : fileFutzBound sz = sz / KILOBYTE - 1 := by
    unfold fileFutzBound u64sub
    rw [e64] at hqlt ⊢
    omega
  have hb0 : fileFutzBound sz ≠ 0 := by rw [hbound]; omega
  have ho : o = r % fileFutzBound sz := by
    unfold fileFutzSeek genRangeLt at hseek
    rw [if_neg hb0] at hseek
    exact (Option.some_inj.mp hseek).symm
  have holt : o < fileFutzBound sz := by
    rw [ho]
    exact Nat.mod_lt _ (Nat.pos_of_ne_zero hb0)
  rw [hbound] at holt
  have hmul : sz / KILOBYTE * KILOBYTE ≤ sz := Nat.div_mul_le_self _ _
  rw [hk] at holt hmul h2k ⊢
  omega

/-- Witness for C1 (amended) at the concrete 2 MiB file and entropy 5. -/
theorem C1_churn_offset_safety_witness :
    2 * KILOBYTE ≤ 2097152 ∧ (2097152 : Nat) < 2 ^ 64 ∧
      fileFutzSeek 2097152 5 = some 5 ∧
      (5 < 2097152 / KILOBYTE - 1 ∧ 5 * KILOBYTE < 2097152 - KILOBYTE ∧
        5 + KILOBYTE ≤ 2097152 / KILOBYTE * KILOBYTE) :=
  ⟨by decide, by decide, by decide,
   C1_churn_offset_safety 2097152 5 5 (by decide) (by decide) (by decide)⟩

/-- C4: evaluation of the offset computation at the failing inputs.  For a
512-byte file, `sz / 1024 - 1` underflows u64: in a release build the
bound wraps to `2^64 - 1` (so the drawn seek offset can be astronomically
far beyond the file — entropy `2^32` yields seek offset `2^32` on a
512-byte file — and `file_futz` does not reliably return an error), while
a debug build panics on the subtraction; and for any size in
`[1024, 2048)` (e.g. 1500) the bound is `0` and `gen_range(0..0)` panics
in both build profiles.  In no case is the claimed clean `Err` return
guaranteed, and a panic kills the churn thread. -/
theorem C4_small_file_underflow :
    fileFutzBound 512 = 2 ^ 64 - 1 ∧
    fileFutzSeek 512 (2 ^ 32) = some (2 ^ 32) ∧
    (512 : Nat) + KILOBYTE < 2 ^ 32 ∧
    fileFutzBound 1500 = 0 ∧
    fileFutzSeek 1500 0 = none := by decide

/-! ## C2, C3, C8: the backup cycle -/

lemma processDataset_fst (snapname : String) (snaps : List String) :
    (processDataset snapname snaps).1 = retention (snaps ++ [snapname]) := by
  simp only [processDataset]
  split <;> rfl

lemma retention_eq_drop :
    ∀ s : List String, retention s = s.drop (s.length - (maxsnaps - 1)) := by
  intro s
  induction s with
  | nil => simp [retention]
  | cons a rest ih =>
    simp only [retention]
    by_cases h : rest.length + 1 < maxsnaps
    · rw [if_pos h]
      have h0 : (a :: rest).length - (maxsnaps - 1) = 0 := by
        simp only [List.length_cons, maxsnaps] at h ⊢
        omega
      rw [h0, List.drop_zero]
    · rw [if_neg h, ih]
      have h1 : (a :: rest).length - (maxsnaps - 1) =
          rest.length - (maxsnaps - 1) + 1 := by
        simp only [List.length_cons, maxsnaps] at h ⊢
        omega
      rw [h1, List.drop_succ_cons]

lemma retention_length_lt : ∀ s : List String, (retention s).length < maxsnaps := by
  intro s
  rw [retention_eq_drop, List.length_drop]
  simp only [maxsnaps]
  omega

lemma backupCycle_states :
    ∀ snapname dss, (backupCycle snapname dss).1 =
      dss.map fun p => (p.1, retention (p.2 ++ [snapname])) := by
  intro snapname dss
  induction dss with
  | nil => rfl
  | cons hd tl ih =>
    cases hd with
    | mk ds snaps =>
      simp only [backupCycle, List.map_cons]
      rw [ih, processDataset_fst]

lemma backupCycle_sends :
    ∀ snapname dss, (backupCycle snapname dss).2 =
      dss.filterMap fun p =>
        match (processDataset snapname p.2).2 with
        | none => none
        | some ab => some (p.1, ab.1, ab.2) := by
  intro snapname dss
  induction dss with
  | nil => rfl
  | cons hd tl ih =>
    cases hd with
    | mk ds snaps =>
      simp only [backupCycle, List.filterMap_cons]
      cases h : (processDataset snapname snaps).2 with
      | none => simp only [h, ih]
      | some ab => simp only [h, ih]

lemma workerPhase_jobs :
    ∀ (sched : List (Fin numSendWorkers)) (q : List (String × String × String)),
      q.length ≤ sched.length →
      (workerPhase sched q).map Prod.snd = q.reverse := by
  intro sched
  induction sched with
  | nil =>
    intro q hq
    have : q = [] := by
      cases q with
      | nil => rfl
      | cons a t => simp at hq
    subst this
    rfl
  | cons w ws ih =>
    intro q hq
    cases hlast : q.getLast? with
    | none =>
      have hqnil : q = [] := by simpa using hlast
      subst hqnil
      rfl
    | some job =>
      have hne : q ≠ [] := by
        intro h
        subst h
        simp at hlast
      have hj : job = q.getLast hne := by
        have h2 := List.getLast?_eq_getLast q hne
        rw [hlast] at h2
        exact Option.some_inj.mp h2
      have hq2 : q.dropLast ++ [job] = q := by
        rw [hj]
        exact List.dropLast_concat_getLast hne
      have hrev : q.reverse = job :: q.dropLast.reverse := by
        conv_lhs => rw [← hq2]
        simp
      have hdl : q.dropLast.length ≤ ws.length := by
        have h3 : q.dropLast.length = q.length - 1 := List.length_dropLast q
        have h4 : q.length ≤ ws.length + 1 := by simpa using hq
        omega
      simp only [workerPhase, hlast, List.map_cons, hrev, ih q.dropLast hdl]

/-- C2: in every backup cycle, for every dataset, after the retention loop
the snapshot count is strictly below `maxsnaps` (5); the loop removes
exactly the oldest snapshots, one per iteration, does nothing when the
count is already below `maxsnaps`, and never removes more snapshots than
needed to cross the threshold (no `k` smaller than the number destroyed
would reach a count below `maxsnaps`). -/
theorem C2_retention_invariant :
    ∀ snapname dss s,
      ((retention s).length < maxsnaps ∧
        retention s = s.drop (s.length - (maxsnaps - 1)) ∧
        (s.length < maxsnaps → retention s = s) ∧
        ∀ k, (s.drop k).length < maxsnaps → s.length - (maxsnaps - 1) ≤ k) ∧
      ∀ p ∈ (backupCycle snapname dss).1, p.2.length < maxsnaps := by
  intro snapname dss s
  have hm : maxsnaps = 5 := rfl
  refine ⟨⟨retention_length_lt s, retention_eq_drop s, ?_, ?_⟩, ?_⟩
  · intro hlt
    rw [retention_eq_drop]
    have h0 : s.length - (maxsnaps - 1) = 0 := by omega
    rw [h0, List.drop_zero]
  · intro k hk
    rw [List.length_drop] at hk
    omega
  · intro p hp
    rw [backupCycle_states] at hp
    obtain ⟨q, _, rfl⟩ := List.mem_map.mp hp
    exact retention_length_lt _

/-- Witness for C2 at a concrete six-snapshot list (two must go). -/
theorem C2_retention_invariant_witness :
    (retention ["a", "b", "c", "d", "e", "f"]).length < maxsnaps ∧
    (["a", "b", "c", "d", "e", "f"] : List String).length - (maxsnaps - 1) ≤ 2 := by
  have h := C2_retention_invariant "backup-1" [] ["a", "b", "c", "d", "e", "f"]
  exact ⟨h.1.1, h.1.2.2.2 2 (by decide)⟩

/-- C3 counterexample: the cycle's worker pool has 4 threads
(`for _ in 0..4` in the `"backup"` arm), not 8 as claimed; moreover the
queue the workers drain holds prepared send jobs, not datasets —
snapshot creation and retention are performed by the main thread before
the pool starts (see `C3_cycle_work_distribution`). -/
theorem C3_counterexample : numSendWorkers = 4 ∧ numSendWorkers ≠ 8 := by decide

/-- C3 (amended): each backup cycle is processed in two phases.  The main
thread iterates the dataset list sequentially, performing for each
dataset the cycle snapshot, then the retention trimming, then the
transfer-validation gating, pushing one send job per eligible dataset
onto a single shared mutex-guarded queue; then a fixed pool of 4 (not 8)
worker threads pops one job at a time from the queue's end until it is
empty, and the jobs executed by the pool are exactly the queued jobs,
each exactly once (in LIFO order across the pool). -/
theorem C3_cycle_work_distribution :
    ∀ snapname dss (sched : List (Fin numSendWorkers)),
      (backupCycle snapname dss).2.length ≤ sched.length →
      numSendWorkers = 4 ∧
      (backupCycle snapname dss).1 =
        (dss.map fun p => (p.1, retention (p.2 ++ [snapname]))) ∧
      (workerPhase sched (backupCycle snapname dss).2).map Prod.snd =
        (backupCycle snapname dss).2.reverse := by
  intro snapname dss sched hlen
  exact ⟨rfl, backupCycle_states snapname dss, workerPhase_jobs sched _ hlen⟩

/-- Witness for C3 (amended) at a concrete two-dataset cycle with a
two-pop schedule. -/
theorem C3_cycle_work_distribution_witness :
    numSendWorkers = 4 ∧
    (backupCycle "backup-9" dssW).1 =
      (dssW.map fun p => (p.1, retention (p.2 ++ ["backup-9"]))) ∧
    (workerPhase schedW (backupCycle "backup-9" dssW).2).map Prod.snd =
      (backupCycle "backup-9" dssW).2.reverse :=
  C3_cycle_work_distribution "backup-9" dssW schedW (by decide)

/-- C8: in a backup cycle a dataset whose post-retention snapshot list has
fewer than 2 entries contributes no send job (no transfer validated);
one with at least 2 contributes exactly one send job, whose base is the
second-most-recent snapshot and whose target is the most recent (the
lists are ordered oldest to newest by creation); the send queue holds
exactly one entry per eligible dataset, and the worker pool executes
every queued job exactly once. -/
theorem C8_transfer_validation_gating :
    ∀ snapname dss (sched : List (Fin numSendWorkers)) snaps,
      (backupCycle snapname dss).2.length ≤ sched.length →
      ((retention (snaps ++ [snapname])).length < 2 →
        (processDataset snapname snaps).2 = none) ∧
      (2 ≤ (retention (snaps ++ [snapname])).length →
        (processDataset snapname snaps).2 =
          some ((retention (snaps ++ [snapname])).getD
                  ((retention (snaps ++ [snapname])).length - 2) "",
                (retention (snaps ++ [snapname])).getD
                  ((retention (snaps ++ [snapname])).length - 1) "")) ∧
      (backupCycle snapname dss).2 =
        (dss.filterMap fun p =>
          match (processDataset snapname p.2).2 with
          | none => none
          | some ab => some (p.1, ab.1, ab.2)) ∧
      (workerPhase sched (backupCycle snapname dss).2).map Prod.snd =
        (backupCycle snapname dss).2.reverse := by
  intro snapname dss sched snaps hlen
  refine ⟨?_, ?_, backupCycle_sends snapname dss, workerPhase_jobs sched _ hlen⟩
  · intro h2
    simp only [processDataset]
    rw [if_pos h2]
  · intro h2
    simp only [processDataset]
    rw [if_neg (by omega)]

/-- Witness for C8: a dataset entering the cycle with no snapshot is
skipped (only the fresh cycle snapshot remains), one entering with one
snapshot is validated from that snapshot to the cycle snapshot, and the
concrete two-job queue is fully executed by the pool. -/
theorem C8_transfer_validation_gating_witness :
    (processDataset "backup-9" []).2 = none ∧
    (processDataset "backup-9" ["t1"]).2 = some ("t1", "backup-9") ∧
    (workerPhase schedW (backupCycle "backup-9" dssW).2).map Prod.snd =
      (backupCycle "backup-9" dssW).2.reverse := by
  refine ⟨(C8_transfer_validation_gating "backup-9" dssW schedW []
      (by decide)).1 (by decide), ?_,
    (C8_transfer_validation_gating "backup-9" dssW schedW []
      (by decide)).2.2.2⟩
  have h := (C8_transfer_validation_gating "backup-9" dssW schedW ["t1"]
      (by decide)).2.1 (by decide)
  exact h.trans (by decide)

/-! ## C7: corpus shape -/

lemma seedFileSize_eq (m : Nat) : seedFileSize m = m * MEGABYTE := by
  simp only [seedFileSize, chunkLen, KILOBYTE, MEGABYTE]
  ring

lemma validSeedDraws_dupDraws : ValidSeedDraws dupDraws := by
  constructor
  · simp [dupDraws]
  · intro d hd
    simp only [dupDraws] at hd
    have hde : d = ⟨0, 0, 0, 2⟩ := List.eq_of_mem_replicate hd
    subst hde
    refine ⟨by norm_num, by norm_num, by norm_num, ?_, ?_⟩
    · show FILE_MIN ≤ 2
      norm_num [FILE_MIN]
    · show 2 ≤ FILE_MAX
      norm_num [FILE_MAX]

lemma dedup_replicate_succ (a : String) :
    ∀ n, (List.replicate (n + 1) a).dedup = [a] := by
  intro n
  induction n with
  | zero => simp
  | succ m ih =>
    rw [List.replicate_succ]
    rw [List.dedup_cons_of_mem (by simp [List.mem_replicate])]
    exact ih

/-- C7 counterexample: "exactly 1000 files" does not hold for every RNG
outcome.  The per-iteration draws are independent, so the same
`(l0, l1, l2)` path can be drawn twice; the second `open` truncates and
overwrites the first file (`.truncate(true).create(true)`), leaving fewer
than 1000 distinct files.  With all 1000 draws identical (valid draws,
each within its range) exactly one file remains. -/
theorem C7_counterexample :
    ValidSeedDraws dupDraws ∧
    ((seedCorpus dupDraws).map Prod.fst).dedup.length = 1 ∧
    (1 : Nat) ≠ SEED_FILE_COUNT := by
  refine ⟨validSeedDraws_dupDraws, ?_, by decide⟩
  have h1 : (seedCorpus dupDraws).map Prod.fst =
      List.replicate SEED_FILE_COUNT (seedFilePath ⟨0, 0, 0, 2⟩) := by
    simp [seedCorpus, dupDraws, List.map_replicate]
  rw [h1, show SEED_FILE_COUNT = 999 + 1 from rfl, dedup_replicate_succ]
  rfl

/-- C7 (amended): on a fresh seed the generator performs exactly
`SEED_FILE_COUNT` (1000) file creations, and every generated file's size
is exactly `sz_mb` MiB for a drawn `sz_mb` uniform in
`[FILE_MIN, FILE_MAX] = [2, 32]` (so sizes lie in [2 MiB, 32 MiB]); the
corpus holds exactly 1000 distinct files whenever the 1000 drawn paths
are distinct (a repeated path overwrites an earlier file, leaving
fewer). -/
theorem C7_corpus_shape :
    ∀ draws, ValidSeedDraws draws →
      (seedCorpus draws).length = SEED_FILE_COUNT ∧
      (∀ p ∈ seedCorpus draws, ∃ m, FILE_MIN ≤ m ∧ m ≤ FILE_MAX ∧
        p.2 = m * MEGABYTE) ∧
      (∀ p ∈ seedCorpus draws,
        FILE_MIN * MEGABYTE ≤ p.2 ∧ p.2 ≤ FILE_MAX * MEGABYTE) ∧
      (((seedCorpus draws).map Prod.fst).Nodup →
        ((seedCorpus draws).map Prod.fst).dedup.length = SEED_FILE_COUNT) := by
  intro draws hv
  obtain ⟨hlen, hbound⟩ := hv
  refine ⟨?_, ?_, ?_, ?_⟩
  · rw [seedCorpus, List.length_map, hlen]
  · intro p hp
    obtain ⟨d, hd, rfl⟩ := List.mem_map.mp hp
    exact ⟨d.szMb, (hbound d hd).2.2.2.1, (hbound d hd).2.2.2.2,
      seedFileSize_eq d.szMb⟩
  · intro p hp
    obtain ⟨d, hd, rfl⟩ := List.mem_map.mp hp
    have hmin := (hbound d hd).2.2.2.1
    have hmax := (hbound d hd).2.2.2.2
    have he : seedFileSize d.szMb = d.szMb * MEGABYTE := seedFileSize_eq d.szMb
    constructor
    · show FILE_MIN * MEGABYTE ≤ seedFileSize d.szMb
      rw [he]
      exact Nat.mul_le_mul_right _ hmin
    · show seedFileSize d.szMb ≤ FILE_MAX * MEGABYTE
      rw [he]
      exact Nat.mul_le_mul_right _ hmax
  · intro hnd
    rw [List.dedup_eq_self.mpr hnd, List.length_map, seedCorpus,
      List.length_map, hlen]

/-- Witness for C7 (amended) at the concrete draw list `dupDraws`. -/
theorem C7_corpus_shape_witness :
    ValidSeedDraws dupDraws ∧ (seedCorpus dupDraws).length = SEED_FILE_COUNT :=
  ⟨validSeedDraws_dupDraws, (C7_corpus_shape dupDraws validSeedDraws_dupDraws).1⟩

/-! ## C9: idempotent seed setup -/

lemma seedRoot_ne_seedDatasetName (pool : String) (id : Nat) :
    seedRoot pool ≠ seedDatasetName pool id := by
  intro h
  have hlen := congrArg String.length h
  rw [seedDatasetName, String.length_append, String.length_append,
    show ("/" : String).length = 1 from rfl] at hlen
  omega

/-- C9: calling `Seed::setup` when the seed's `final` snapshot already
exists (and the seed root dataset is present, as any prior setup run
leaves it) performs zero destructive or generative operations on
storage: the storage state is unchanged, and the issued command trace is
exactly the tolerated `zfs create` of the shared seed root plus the
snapshot-existence query — it contains no destroy, no snapshot, no file
write, and no creation of the seed's own dataset. -/
theorem C9_seed_setup_idempotent :
    ∀ st pool id draws,
      seedRoot pool ∈ st.datasets →
      (seedDatasetName pool id, "final") ∈ st.snaps →
      (seedSetup st pool id draws).2 = st ∧
      (seedSetup st pool id draws).1 =
        [ZfsCmd.create (seedRoot pool) true,
         ZfsCmd.snapExistsQ (seedDatasetName pool id) "final"] ∧
      ∀ c ∈ (seedSetup st pool id draws).1,
        (∀ d r, c ≠ ZfsCmd.destroy d r) ∧
        (∀ d n, c ≠ ZfsCmd.snapshot d n) ∧
        (∀ p s, c ≠ ZfsCmd.fileWrite p s) ∧
        (∀ b, c ≠ ZfsCmd.create (seedDatasetName pool id) b) := by
  intro st pool id draws hroot hfinal
  have h1 : zfsCreateSt st (seedRoot pool) = st := by
    unfold zfsCreateSt
    rw [if_pos hroot]
  have htrace : seedSetup st pool id draws =
      ([ZfsCmd.create (seedRoot pool) true,
        ZfsCmd.snapExistsQ (seedDatasetName pool id) "final"], st) := by
    simp only [seedSetup, h1]
    rw [if_pos hfinal]
  refine ⟨by rw [htrace], by rw [htrace], ?_⟩
  intro c hc
  rw [htrace] at hc
  simp only [List.mem_cons, List.not_mem_nil, or_false] at hc
  rcases hc with rfl | rfl
  · refine ⟨fun d r h => ZfsCmd.noConfusion h, fun d n h => ZfsCmd.noConfusion h,
      fun p s h => ZfsCmd.noConfusion h, fun b h => ?_⟩
    have : seedRoot pool = seedDatasetName pool id := by injection h
    exact seedRoot_ne_seedDatasetName pool id this
  · exact ⟨fun d r h => ZfsCmd.noConfusion h, fun d n h => ZfsCmd.noConfusion h,
      fun p s h => ZfsCmd.noConfusion h, fun b h => ZfsCmd.noConfusion h⟩

/-- Witness for C9 at the concrete set-up state `stW` (seed 3 of pool
`dynamite` with its `final` snapshot present). -/
theorem C9_seed_setup_idempotent_witness :
    (seedSetup stW "dynamite" 3 []).2 = stW ∧
    (seedSetup stW "dynamite" 3 []).1 =
      [ZfsCmd.create (seedRoot "dynamite") true,
       ZfsCmd.snapExistsQ (seedDatasetName "dynamite" 3) "final"] :=
  ⟨(C9_seed_setup_idempotent stW "dynamite" 3 [] (by decide) (by decide)).1,
   (C9_seed_setup_idempotent stW "dynamite" 3 [] (by decide) (by decide)).2.1⟩
